import Mathlib

/-!
Shallow embedding of the contract-analysis backend
(`backend/app/api/routes.py` together with the upload limits of
`backend/app/settings.py`).

The Python module keeps three pieces of global mutable state:

* `analysis_status_store : Dict[str, Dict[str, Any]]` — the job store;
* `analysis_results_store : Dict[str, ContractAnalysisResponse]` — final results;
* `manager : ConnectionManager` — WebSocket groups per document id.

We model Python dictionaries as association lists over `String` keys,
WebSocket channels as natural numbers together with an `alive` oracle
(`alive c = false` means a send on `c` raises), and the external
collaborators (md5, PDF extraction, clause segmentation, LLM analysis)
as an abstract `Collaborators` record, since their internals live outside
the inspected code.  The background pipeline task
`process_contract_analysis` is modelled as a small-step runner: a `Task`
records the document it works on and how many status writes it has
already performed; one runner step performs exactly the store/broadcast
writes that the corresponding segment of the Python coroutine performs
atomically (between two `await` suspension points there is no
interleaving).  An exception inside the `try` block may surface between
any two writes, which the step relation models with an explicit `fail`
transition.
-/

set_option autoImplicit false

deriving instance DecidableEq for Except

namespace ContractAPI

/-! ### Python dictionaries as association lists -/

abbrev Dict (α : Type) : Type := List (String × α)

def Dict.lookup {α : Type} : Dict α → String → Option α
  | [], _ => none
  | (k, v) :: rest, key => if k = key then some v else Dict.lookup rest key

/-- `d[k] = v` for a Python dict: replace in place, append if absent. -/
def Dict.insert {α : Type} : Dict α → String → α → Dict α
  | [], key, v => [(key, v)]
  | (k, w) :: rest, key, v =>
      if k = key then (k, v) :: rest else (k, w) :: Dict.insert rest key v

/-- `del d[k]` for a Python dict (keys are unique, so a filter is exact). -/
def Dict.erase {α : Type} (d : Dict α) (k : String) : Dict α :=
  d.filter (fun p => p.1 != k)

/-! ### Data model -/

/-- One WebSocket channel.  The transport is abstracted by an `alive`
oracle passed to the operations that perform sends. -/
abbrev Channel : Type := Nat

/-- The status snapshot built by `update_analysis_status` (routes.py:116). -/
structure StatusRecord where
  document_id : String
  status : String
  progress : Int
  message : String
  timestamp : Nat
  error_details : Option String
deriving DecidableEq, Repr

/-- The structured analysis payload (`ContractAnalysisResponse`); only its
identity and the number of analysed clauses matter to the routes. -/
structure ContractAnalysisResponse where
  summary : String
  clauses : List String
deriving DecidableEq, Repr

/-- The `AnalysisStatus` response model returned by the endpoints. -/
structure AnalysisStatus where
  document_id : String
  status : String
  progress : Int
  message : String
  error_details : Option String
deriving DecidableEq, Repr

/-- `fastapi.HTTPException`. -/
structure HTTPException where
  status_code : Nat
  detail : String
deriving DecidableEq, Repr

/-- An uploaded file: name, declared content type, raw byte content. -/
structure UploadFileData where
  filename : String
  content_type : String
  content : List Nat
deriving DecidableEq, Repr

/-- `ConnectionManager` (routes.py:41): WebSocket groups per document id. -/
structure Manager where
  active_connections : Dict (List Channel)
deriving DecidableEq, Repr

/-- One scheduled background run of `process_contract_analysis`.
`stage` counts the status writes the runner has performed so far
(0 = scheduled but not started; 5 = finished successfully and gone). -/
structure Task where
  document_id : String
  file_content : List Nat
  filename : String
  perspectiva : String
  stage : Nat
deriving DecidableEq, Repr

/-- The module-level mutable state of routes.py. -/
structure SysState where
  analysis_status_store : Dict StatusRecord
  analysis_results_store : Dict ContractAnalysisResponse
  manager : Manager
  tasks : List Task
deriving DecidableEq, Repr

/-- External collaborators (hashlib.md5, PDFProcessor, ClauseSegmenter,
ContractExtractor, analyze_contract_clauses): abstract oracles, since their
code is outside routes.py. -/
structure Collaborators where
  md5hex16 : List Nat → String
  num_clauses : List Nat → Nat
  analysis_for : List Nat → String → ContractAnalysisResponse

/-! ### Settings (defaults of `Settings` in settings.py) -/

def max_file_size : Nat := 52428800

def allowed_file_types : List String := ["application/pdf"]

/-! ### ConnectionManager operations -/

/-- `connect` (routes.py:47): create the group if missing, then append. -/
def Manager.connect (m : Manager) (c : Channel) (document_id : String) : Manager :=
  let conns := match Dict.lookup m.active_connections document_id with
    | none => []
    | some l => l
  ⟨Dict.insert m.active_connections document_id (conns ++ [c])⟩

/-- `disconnect` (routes.py:55): remove the first matching channel and drop
the group entry if it became empty. -/
def Manager.disconnect (m : Manager) (c : Channel) (document_id : String) : Manager :=
  match Dict.lookup m.active_connections document_id with
  | none => m
  | some conns =>
      let conns' := if c ∈ conns then conns.erase c else conns
      if conns' = [] then ⟨Dict.erase m.active_connections document_id⟩
      else ⟨Dict.insert m.active_connections document_id conns'⟩

/-- The `for connection in connections` loop of `send_status_update`
(routes.py:68): iterate over the copied list; a failed send disconnects
that channel and the loop carries on.  Returns the updated manager and
the channels that were actually delivered to. -/
def send_to_connections (document_id : String) (alive : Channel → Bool) :
    Manager → List Channel → Manager × List Channel
  | m, [] => (m, [])
  | m, c :: rest =>
      if alive c then
        let (m', delivered) := send_to_connections document_id alive m rest
        (m', c :: delivered)
      else
        let m' := m.disconnect c document_id
        send_to_connections document_id alive m' rest

/-- `send_status_update` (routes.py:64). -/
def send_status_update (m : Manager) (document_id : String) (alive : Channel → Bool) :
    Manager × List Channel :=
  match Dict.lookup m.active_connections document_id with
  | none => (m, [])
  | some conns => send_to_connections document_id alive m conns

/-! ### File validation -/

/-- ASCII lowering of a character code, modelling `str.lower` on filenames. -/
def lower_code (n : Nat) : Nat := if 65 ≤ n ∧ n ≤ 90 then n + 32 else n

/-- `file.filename.lower().endswith(".pdf")` (routes.py:98). -/
def ends_with_dot_pdf (filename : String) : Bool :=
  List.isSuffixOf (".pdf".data.map (fun c => c.toNat))
    (filename.data.map (fun c => lower_code c.toNat))

/-- `validate_pdf_file` (routes.py:80). -/
def validate_pdf_file (file : UploadFileData) : Except HTTPException Unit :=
  if file.content_type ∉ allowed_file_types then
    .error ⟨415, "Tipo de arquivo não suportado. Apenas PDF é permitido."⟩
  else if ¬ ends_with_dot_pdf file.filename then
    .error ⟨415, "Arquivo deve ter extensão .pdf"⟩
  else
    .ok ()

/-! ### Status updates and the pipeline runner -/

/-- `update_analysis_status` (routes.py:108): write the snapshot to the
status store, then broadcast it to the document's WebSocket group. -/
def update_analysis_status (s : SysState) (alive : Channel → Bool)
    (document_id status : String) (progress : Int) (message : String)
    (now : Nat) (error_details : Option String) : SysState :=
  let status_update : StatusRecord :=
    ⟨document_id, status, progress, message, now, error_details⟩
  let store := Dict.insert s.analysis_status_store document_id status_update
  let mgr := (send_status_update s.manager document_id alive).1
  { s with analysis_status_store := store, manager := mgr }

/-- `f"doc_{timestamp}_{content_hash}"` (routes.py:268) from the raw parts. -/
def make_document_id (timestamp : Nat) (content_hash : String) : String :=
  "doc_" ++ Nat.repr timestamp ++ "_" ++ content_hash

/-- Document id minted at submission (routes.py:265-268): epoch second plus
the first 16 hex characters of the md5 of the content. -/
def mint_document_id (md5hex16 : List Nat → String) (content : List Nat)
    (now : Nat) : String :=
  make_document_id now (md5hex16 content)

/-- Progress checkpoint of the k-th status write of
`process_contract_analysis` (routes.py:146-210). -/
def runner_progress : Nat → Int
  | 0 => 10
  | 1 => 30
  | 2 => 50
  | 3 => 70
  | _ => 100

/-- Message of the k-th non-terminal status write of the runner. -/
def runner_message (C : Collaborators) (t : Task) : Nat → String
  | 0 => "Iniciando processamento do PDF..."
  | 1 => "PDF processado. Segmentando cláusulas..."
  | 2 => "Identificadas " ++ toString (C.num_clauses t.file_content) ++
      " cláusulas. Extraindo dados do contrato..."
  | _ => "Dados extraídos. Analisando cláusulas com IA..."

/-- One atomic segment of `process_contract_analysis`: the next status
write of the runner `t`.  Writes 0–3 announce "processing" at 10/30/50/70;
the fifth write stores the result (routes.py:203) and announces
"completed"/100 (routes.py:205) — both happen with no suspension point in
between, hence one step.  The runner disappears after its final write. -/
def run_task_step (C : Collaborators) (alive : Channel → Bool)
    (s : SysState) (t : Task) (now : Nat) : SysState :=
  if t.stage < 4 then
    let s1 := update_analysis_status s alive t.document_id "processing"
      (runner_progress t.stage) (runner_message C t t.stage) now none
    { s1 with tasks := s1.tasks.erase t ++ [{ t with stage := t.stage + 1 }] }
  else
    let result := C.analysis_for t.file_content t.perspectiva
    let s1 := { s with
      analysis_results_store := Dict.insert s.analysis_results_store t.document_id result }
    let s2 := update_analysis_status s1 alive t.document_id "completed" 100
      ("Análise completa! " ++ toString result.clauses.length ++ " cláusulas analisadas.")
      now none
    { s2 with tasks := s2.tasks.erase t }

/-- The `except` branch of `process_contract_analysis` (routes.py:214-222):
an exception anywhere inside the `try` writes a terminal "failed" snapshot
with progress 0 and ends the runner. -/
def fail_task_step (alive : Channel → Bool) (s : SysState) (t : Task)
    (e : String) (now : Nat) : SysState :=
  let s1 := update_analysis_status s alive t.document_id "failed" 0
    ("Falha na análise: " ++ e) now (some e)
  { s1 with tasks := s1.tasks.erase t }

/-- Stages of the four-stage pipeline that the runner has fully executed:
write k announces stage k before it runs, so after only the initial
announcement (stage field 1) no stage has completed yet. -/
def Task.stages_completed (t : Task) : Nat := t.stage - 1

/-! ### Endpoints -/

/-- `upload_and_analyze_contract` (routes.py:226): validate, size-check,
mint the id, write the initial "pending" snapshot, schedule the runner. -/
def upload_and_analyze_contract (s : SysState) (alive : Channel → Bool)
    (md5hex16 : List Nat → String) (file : UploadFileData)
    (perspectiva : String) (now : Nat) :
    SysState × Except HTTPException AnalysisStatus :=
  match validate_pdf_file file with
  | .error e => (s, .error e)
  | .ok _ =>
    if perspectiva ∉ ["fundador", "investidor"] then
      (s, .error ⟨400, "Perspectiva deve ser \x27fundador\x27 ou \x27investidor\x27"⟩)
    else
      let file_content := file.content
      if file_content.length > max_file_size then
        (s, .error ⟨413, "Arquivo muito grande. Máximo permitido: 50.0MB"⟩)
      else
        let document_id := mint_document_id md5hex16 file_content now
        let s1 := update_analysis_status s alive document_id "pending" 0
          "Documento recebido. Aguardando processamento..." now none
        let s2 := { s1 with
          tasks := s1.tasks ++ [⟨document_id, file_content, file.filename, perspectiva, 0⟩] }
        (s2, .ok ⟨document_id, "pending", 0,
          "Análise iniciada. Use WebSocket ou polling para acompanhar o progresso.", none⟩)

/-- `get_analysis_status` (routes.py:306). -/
def get_analysis_status (s : SysState) (document_id : String) :
    Except HTTPException AnalysisStatus :=
  match Dict.lookup s.analysis_status_store document_id with
  | none => .error ⟨404, "Documento não encontrado"⟩
  | some info =>
      .ok ⟨document_id, info.status, info.progress, info.message, info.error_details⟩

/-- `get_analysis_result` (routes.py:334). -/
def get_analysis_result (s : SysState) (document_id : String) :
    Except HTTPException ContractAnalysisResponse :=
  match Dict.lookup s.analysis_status_store document_id with
  | none => .error ⟨404, "Documento não encontrado"⟩
  | some info =>
      if info.status ≠ "completed" then
        .error ⟨202, "Análise ainda em andamento. Status: " ++ info.status⟩
      else
        match Dict.lookup s.analysis_results_store document_id with
        | none => .error ⟨500, "Resultado da análise não encontrado"⟩
        | some result => .ok result

/-- `delete_analysis` (routes.py:373): drop both store entries, close every
channel of the document's group (close failures are swallowed) and drop the
group.  Returns the new state, the channels that were closed, and the
success message — which is returned unconditionally. -/
def delete_analysis (s : SysState) (document_id : String) :
    SysState × List Channel × String :=
  let st := Dict.erase s.analysis_status_store document_id
  let rs := Dict.erase s.analysis_results_store document_id
  let closed := match Dict.lookup s.manager.active_connections document_id with
    | none => []
    | some l => l
  let mgr : Manager := ⟨Dict.erase s.manager.active_connections document_id⟩
  ({ s with analysis_status_store := st, analysis_results_store := rs, manager := mgr },
    closed, "Análise removida com sucesso")

/-- One row of the `list_analyses` response (routes.py:416): the dict key
is used as the `document_id` field. -/
structure AnalysisListEntry where
  document_id : String
  status : String
  progress : Int
  message : String
  timestamp : Nat
deriving DecidableEq, Repr

/-- Descending insertion by timestamp, modelling
`analyses.sort(key=..., reverse=True)` (routes.py:425). -/
def insert_by_ts_desc (e : AnalysisListEntry) : List AnalysisListEntry → List AnalysisListEntry
  | [] => [e]
  | x :: xs =>
      if x.timestamp ≤ e.timestamp then e :: x :: xs
      else x :: insert_by_ts_desc e xs

def sort_by_ts_desc : List AnalysisListEntry → List AnalysisListEntry
  | [] => []
  | x :: xs => insert_by_ts_desc x (sort_by_ts_desc xs)

/-- `list_analyses` (routes.py:406): every status-store row, most recently
updated first, together with the total count. -/
def list_analyses (s : SysState) : List AnalysisListEntry × Nat :=
  let analyses := s.analysis_status_store.map
    (fun p => AnalysisListEntry.mk p.1 p.2.status p.2.progress p.2.message p.2.timestamp)
  let sorted := sort_by_ts_desc analyses
  (sorted, sorted.length)

/-- One row of the batch response (routes.py:491,520): either an inline
per-item error or a scheduled job descriptor. -/
inductive BatchItem where
  | fileError (filename error_message : String)
  | scheduled (filename document_id status : String)
deriving DecidableEq, Repr

/-- The state effect of one valid batch item (routes.py:488-518): skip the
oversized file, otherwise write the "pending" snapshot and schedule the
runner. -/
def submit_item (alive : Channel → Bool) (md5hex16 : List Nat → String)
    (perspectiva : String) (now : Nat) (s : SysState) (file : UploadFileData) : SysState :=
  if file.content.length > max_file_size then s
  else
    let document_id := mint_document_id md5hex16 file.content now
    let s1 := update_analysis_status s alive document_id "pending" 0
      ("Arquivo " ++ file.filename ++ " na fila de processamento...") now none
    { s1 with
      tasks := s1.tasks ++ [⟨document_id, file.content, file.filename, perspectiva, 0⟩] }

/-- The response row the loop appends for one valid-PDF item. -/
def batch_item_of (md5hex16 : List Nat → String) (now : Nat)
    (file : UploadFileData) : BatchItem :=
  if file.content.length > max_file_size then
    .fileError file.filename "Arquivo muito grande (máx. 50.0MB)"
  else
    .scheduled file.filename (mint_document_id md5hex16 file.content now) "pending"

/-- The `for file in files` loop of `batch_analyze_contracts`
(routes.py:483-524).  `validate_pdf_file` raising aborts the whole request,
but the state mutations already performed stay. -/
def batch_loop (alive : Channel → Bool) (md5hex16 : List Nat → String)
    (perspectiva : String) (now : Nat) :
    SysState → List UploadFileData → List BatchItem →
    SysState × Except HTTPException (List BatchItem)
  | s, [], acc => (s, .ok acc)
  | s, file :: rest, acc =>
      match validate_pdf_file file with
      | .error e => (s, .error e)
      | .ok _ =>
          if file.content.length > max_file_size then
            batch_loop alive md5hex16 perspectiva now s rest
              (acc ++ [batch_item_of md5hex16 now file])
          else
            batch_loop alive md5hex16 perspectiva now
              (submit_item alive md5hex16 perspectiva now s file) rest
              (acc ++ [batch_item_of md5hex16 now file])

/-- `batch_analyze_contracts` (routes.py:460): at most 10 files per call,
then the per-item loop.  The timestamp is taken per request here (the
source reads the clock per item; within one request the epoch second is
the same for our purposes). -/
def batch_analyze_contracts (s : SysState) (alive : Channel → Bool)
    (md5hex16 : List Nat → String) (files : List UploadFileData)
    (perspectiva : String) (now : Nat) :
    SysState × Except HTTPException (List BatchItem × Nat) :=
  if files.length > 10 then
    (s, .error ⟨400, "Máximo 10 arquivos por lote"⟩)
  else
    match batch_loop alive md5hex16 perspectiva now s files [] with
    | (s', .error e) => (s', .error e)
    | (s', .ok results) => (s', .ok (results, results.length))

/-! ### The system as a labelled transition system

One `Step` is one atomic segment of the Python source: a successful submit,
one runner write, a runner failure, a delete, or a WebSocket
connect/disconnect.  The `submit` step carries the freshness side condition
that the minted document id is not currently known to the results store or
to a live runner — the uniqueness the source counts on when minting ids
from content hash + epoch second. -/

def initState : SysState := ⟨[], [], ⟨[]⟩, []⟩

inductive Step (C : Collaborators) : SysState → SysState → Prop where
  | submit (s : SysState) (alive : Channel → Bool) (file : UploadFileData)
      (perspectiva : String) (now : Nat)
      (hok : (upload_and_analyze_contract s alive C.md5hex16 file perspectiva now).2.isOk = true)
      (hfresh_result :
        Dict.lookup s.analysis_results_store
          (mint_document_id C.md5hex16 file.content now) = none)
      (hfresh_task :
        mint_document_id C.md5hex16 file.content now ∉ s.tasks.map Task.document_id) :
      Step C s (upload_and_analyze_contract s alive C.md5hex16 file perspectiva now).1
  | run (s : SysState) (alive : Channel → Bool) (t : Task) (now : Nat)
      (ht : t ∈ s.tasks) :
      Step C s (run_task_step C alive s t now)
  | fail (s : SysState) (alive : Channel → Bool) (t : Task) (e : String) (now : Nat)
      (ht : t ∈ s.tasks) :
      Step C s (fail_task_step alive s t e now)
  | del (s : SysState) (document_id : String) :
      Step C s (delete_analysis s document_id).1
  | ws_connect (s : SysState) (c : Channel) (document_id : String) :
      Step C s { s with manager := s.manager.connect c document_id }
  | ws_disconnect (s : SysState) (c : Channel) (document_id : String) :
      Step C s { s with manager := s.manager.disconnect c document_id }

inductive Reach (C : Collaborators) : SysState → Prop where
  | init : Reach C initState
  | step {s s' : SysState} : Reach C s → Step C s s' → Reach C s'

/-! ### Invariants -/

/-- The §3 invariant of the spec: every document id in the results store is
in the status store with status "completed". -/
def StoreInv (s : SysState) : Prop :=
  ∀ id r, Dict.lookup s.analysis_results_store id = some r →
    ∃ st, Dict.lookup s.analysis_status_store id = some st ∧ st.status = "completed"

/-- A live runner's document has no stored result yet. -/
def TaskResultSep (s : SysState) : Prop :=
  ∀ t ∈ s.tasks, Dict.lookup s.analysis_results_store t.document_id = none

/-- No two live runners share a document id. -/
def TaskIdsNodup (s : SysState) : Prop :=
  (s.tasks.map Task.document_id).Nodup

def SysInv (s : SysState) : Prop := StoreInv s ∧ TaskResultSep s ∧ TaskIdsNodup s

/-- The Notification Hub invariant: no group entry is ever the empty list. -/
def HubInv (m : Manager) : Prop :=
  ∀ id l, Dict.lookup m.active_connections id = some l → l ≠ []

/-! ### Concrete fixtures used to evaluate the model on closed inputs -/

/-- A transport oracle under which every send succeeds. -/
def aliveAll : Channel → Bool := fun _ => true

/-- Concrete collaborator oracles for evaluation: a constant 16-character
hash prefix, two clauses found, a fixed two-clause analysis. -/
def testC : Collaborators :=
  ⟨fun _ => "aaaabbbbccccdddd", fun _ => 2, fun _ _ => ⟨"resumo", ["c1", "c2"]⟩⟩

def testFile : UploadFileData := ⟨"contrato.pdf", "application/pdf", [1, 2, 3]⟩

def testFile2 : UploadFileData := ⟨"outro.pdf", "application/pdf", [9, 9]⟩

/-- A file over the 50MB limit (52428801 bytes). -/
def bigFile : UploadFileData :=
  ⟨"grande.pdf", "application/pdf", List.replicate 52428801 0⟩

/-- A file whose content type fails `validate_pdf_file`. -/
def badTypeFile : UploadFileData := ⟨"planilha.pdf", "text/csv", [4]⟩

/-- A state holding exactly one job, still "pending", with no result. -/
def pendingOnlyState : SysState :=
  ⟨[("doc_1_h", ⟨"doc_1_h", "pending", 0, "na fila", 1, none⟩)], [], ⟨[]⟩,
    [⟨"doc_1_h", [1], "a.pdf", "fundador", 0⟩]⟩

/-- Advance the first scheduled runner by one write (trace-building helper). -/
def run_head (C : Collaborators) (alive : Channel → Bool) (now : Nat)
    (s : SysState) : SysState :=
  match s.tasks with
  | [] => s
  | t :: _ => run_task_step C alive s t now

/-- A hub with one two-channel group. -/
def twoChanManager : Manager := ⟨[("d", [1, 2])]⟩

/-- A hub with a two-channel group for "d" and a one-channel group for
"e"; channel 2 is dead. -/
def mixedManager : Manager := ⟨[("d", [1, 2]), ("e", [3])]⟩

/-- The state right after one successful upload of `testFile` at second 100. -/
def s_after_submit : SysState :=
  (upload_and_analyze_contract initState aliveAll testC.md5hex16 testFile
    "fundador" 100).1

/-- The progress values written for one job: 0 at submission, then the
runner's checkpoint writes; a failing run additionally ends with the
terminal "failed" write carrying progress 0. -/
def job_progress_writes (k : Nat) (failed : Bool) : List Int :=
  0 :: (((List.range k).map runner_progress) ++ (if failed then [(0 : Int)] else []))

/-- Adjacent-pairs check that a list of progress values never decreases. -/
def non_decreasing : List Int → Bool
  | [] => true
  | [_] => true
  | a :: b :: rest => decide (a ≤ b) && non_decreasing (b :: rest)

/-- The state after the single submitted job has run to completion:
five runner writes ending in "completed"/100 with the result stored. -/
def s_completed_run : SysState :=
  run_head testC aliveAll 101 (run_head testC aliveAll 101 (run_head testC aliveAll 101
    (run_head testC aliveAll 101 (run_head testC aliveAll 101 s_after_submit))))

/-- The completed state after resubmitting the identical file within the
same epoch second: the submit endpoint freshly minted the *same* document
id and reset its status to "pending" while the stored result survived. -/
def s_collision : SysState :=
  (upload_and_analyze_contract s_completed_run aliveAll testC.md5hex16 testFile
    "fundador" 100).1

/-! ### Association-list lemmas -/

theorem Dict.lookup_insert {α : Type} (d : Dict α) (k : String) (v : α) :
    Dict.lookup (Dict.insert d k v) k = some v := by
  induction d with
  | nil => simp [Dict.insert, Dict.lookup]
  | cons p rest ih =>
      by_cases h : p.1 = k
      · simp [Dict.insert, Dict.lookup, h]
      · simp [Dict.insert, Dict.lookup, h, ih]

theorem Dict.lookup_insert_ne {α : Type} (d : Dict α) {k k' : String} (v : α)
    (h : k' ≠ k) : Dict.lookup (Dict.insert d k v) k' = Dict.lookup d k' := by
  induction d with
  | nil => simp [Dict.insert, Dict.lookup, Ne.symm h]
  | cons p rest ih =>
      by_cases hp : p.1 = k
      · subst hp
        simp [Dict.insert, Dict.lookup, Ne.symm h]
      · simp only [Dict.insert, if_neg hp]
        by_cases hp' : p.1 = k'
        · simp [Dict.lookup, hp']
        · simp [Dict.lookup, hp', ih]

theorem Dict.lookup_erase {α : Type} (d : Dict α) (k : String) :
    Dict.lookup (Dict.erase d k) k = none := by
  induction d with
  | nil => simp [Dict.erase, Dict.lookup]
  | cons p rest ih =>
      by_cases h : p.1 = k
      · simp only [Dict.erase, List.filter_cons] at ih ⊢
        simp [h, ih]
      · simp only [Dict.erase, List.filter_cons] at ih ⊢
        simp [h, Dict.lookup, ih]

theorem Dict.lookup_erase_ne {α : Type} (d : Dict α) {k k' : String}
    (h : k' ≠ k) : Dict.lookup (Dict.erase d k) k' = Dict.lookup d k' := by
  induction d with
  | nil => simp [Dict.erase, Dict.lookup]
  | cons p rest ih =>
      by_cases hp : p.1 = k
      · have hp' : p.1 ≠ k' := by
          rw [hp]; exact Ne.symm h
        simp only [Dict.erase, List.filter_cons] at ih ⊢
        simp [hp, hp', Dict.lookup, ih, Ne.symm h]
      · simp only [Dict.erase, List.filter_cons] at ih ⊢
        by_cases hp' : p.1 = k'
        · simp [hp, hp', Dict.lookup, h]
        · simp [hp, hp', Dict.lookup, ih]

theorem Dict.erase_of_lookup_none {α : Type} (d : Dict α) (k : String)
    (h : Dict.lookup d k = none) : Dict.erase d k = d := by
  induction d with
  | nil => simp [Dict.erase]
  | cons p rest ih =>
      simp only [Dict.lookup] at h
      by_cases hp : p.1 = k
      · simp [hp] at h
      · simp only [hp, if_false, if_neg hp] at h
        simp only [Dict.erase, List.filter_cons] at ih ⊢
        simp [hp, ih h]

/-! ### C4: result-endpoint outcomes -/

/-- Claim C4: fetching the result fails with 404 (NotFound) exactly when the
id is absent from the status store; fails with the distinguishable 202
(NotReady) signal exactly when a status is stored but is not "completed";
fails with 500 (server error) exactly when the status is "completed" but no
result record exists; and otherwise returns exactly the stored result. -/
theorem result_endpoint_outcomes (s : SysState) (id : String) :
    (get_analysis_result s id = .error ⟨404, "Documento não encontrado"⟩ ↔
      Dict.lookup s.analysis_status_store id = none)
    ∧ ((∃ e, get_analysis_result s id = .error e ∧ e.status_code = 202) ↔
      (∃ info, Dict.lookup s.analysis_status_store id = some info ∧
        info.status ≠ "completed"))
    ∧ ((∃ e, get_analysis_result s id = .error e ∧ e.status_code = 500) ↔
      (∃ info, Dict.lookup s.analysis_status_store id = some info ∧
        info.status = "completed" ∧ Dict.lookup s.analysis_results_store id = none))
    ∧ (∀ r, get_analysis_result s id = .ok r ↔
      ((∃ info, Dict.lookup s.analysis_status_store id = some info ∧
        info.status = "completed") ∧
        Dict.lookup s.analysis_results_store id = some r)) := by
  unfold get_analysis_result
  cases hst : Dict.lookup s.analysis_status_store id with
  | none => simp
  | some info =>
      by_cases hc : info.status = "completed"
      · cases hr : Dict.lookup s.analysis_results_store id with
        | none => simp [hc]
        | some r => simp [hc]
      · simp [hc]

/-- Closed instance of `result_endpoint_outcomes`: a state holding a
"pending" job, evaluated at that job's id. -/
theorem result_endpoint_outcomes_witness :
    (get_analysis_result pendingOnlyState "doc_1_h" =
        .error ⟨404, "Documento não encontrado"⟩ ↔
      Dict.lookup pendingOnlyState.analysis_status_store "doc_1_h" = none)
    ∧ ((∃ e, get_analysis_result pendingOnlyState "doc_1_h" = .error e ∧
        e.status_code = 202) ↔
      (∃ info, Dict.lookup pendingOnlyState.analysis_status_store "doc_1_h" = some info ∧
        info.status ≠ "completed"))
    ∧ ((∃ e, get_analysis_result pendingOnlyState "doc_1_h" = .error e ∧
        e.status_code = 500) ↔
      (∃ info, Dict.lookup pendingOnlyState.analysis_status_store "doc_1_h" = some info ∧
        info.status = "completed" ∧
        Dict.lookup pendingOnlyState.analysis_results_store "doc_1_h" = none))
    ∧ (∀ r, get_analysis_result pendingOnlyState "doc_1_h" = .ok r ↔
      ((∃ info, Dict.lookup pendingOnlyState.analysis_status_store "doc_1_h" = some info ∧
        info.status = "completed") ∧
        Dict.lookup pendingOnlyState.analysis_results_store "doc_1_h" = some r)) :=
  result_endpoint_outcomes pendingOnlyState "doc_1_h"

/-! ### C5: oversized single upload -/

/-- Claim C5: a single-file submission whose content exceeds
`max_file_size` is rejected synchronously with an error response, the
module state (status store, results store, hub, scheduled runners) is
left exactly as it was, and no job is scheduled. -/
theorem oversized_upload_rejected (s : SysState) (alive : Channel → Bool)
    (md5 : List Nat → String) (file : UploadFileData) (perspectiva : String) (now : Nat)
    (h : file.content.length > max_file_size) :
    (upload_and_analyze_contract s alive md5 file perspectiva now).1 = s
    ∧ ∃ e, (upload_and_analyze_contract s alive md5 file perspectiva now).2 =
        .error e := by
  unfold upload_and_analyze_contract
  cases hv : validate_pdf_file file with
  | error e => exact ⟨rfl, e, rfl⟩
  | ok u =>
      by_cases hp : perspectiva ∈ ["fundador", "investidor"]
      · have hnn : ¬ perspectiva ∉ ["fundador", "investidor"] := not_not_intro hp
        simp only [if_neg hnn]
        simp [h]
      · simp [hp]

/-- Closed instance of `oversized_upload_rejected` at a 52428801-byte file
against the empty initial state. -/
theorem oversized_upload_rejected_witness :
    bigFile.content.length > max_file_size
    ∧ ((upload_and_analyze_contract initState aliveAll testC.md5hex16 bigFile
          "fundador" 100).1 = initState
      ∧ ∃ e, (upload_and_analyze_contract initState aliveAll testC.md5hex16 bigFile
          "fundador" 100).2 = .error e) :=
  have h : bigFile.content.length > max_file_size := by
    have e : bigFile.content.length = 52428801 := List.length_replicate 52428801 0
    rw [e]; decide
  ⟨h, oversized_upload_rejected initState aliveAll testC.md5hex16 bigFile "fundador" 100 h⟩

/-! ### C6: delete semantics -/

/-- Claim C6: after `delete_analysis`, both the status read and the result
read for the id answer 404; the previously registered channels for the id
are exactly the ones that get closed, and the id's group is gone from the
hub; the success message is returned unconditionally; and when the id is
absent from both stores and the hub, delete is a complete no-op on the
state. -/
theorem delete_analysis_spec (s : SysState) (document_id : String) :
    get_analysis_status (delete_analysis s document_id).1 document_id =
      .error ⟨404, "Documento não encontrado"⟩
    ∧ get_analysis_result (delete_analysis s document_id).1 document_id =
      .error ⟨404, "Documento não encontrado"⟩
    ∧ Dict.lookup (delete_analysis s document_id).1.manager.active_connections
        document_id = none
    ∧ (∀ l, Dict.lookup s.manager.active_connections document_id = some l →
        (delete_analysis s document_id).2.1 = l)
    ∧ (Dict.lookup s.manager.active_connections document_id = none →
        (delete_analysis s document_id).2.1 = [])
    ∧ (delete_analysis s document_id).2.2 = "Análise removida com sucesso"
    ∧ (Dict.lookup s.analysis_status_store document_id = none →
       Dict.lookup s.analysis_results_store document_id = none →
       Dict.lookup s.manager.active_connections document_id = none →
       (delete_analysis s document_id).1 = s) := by
  refine ⟨?_, ?_, ?_, ?_, ?_, rfl, ?_⟩
  · unfold get_analysis_status delete_analysis
    simp [Dict.lookup_erase]
  · unfold get_analysis_result delete_analysis
    simp [Dict.lookup_erase]
  · unfold delete_analysis
    simp [Dict.lookup_erase]
  · intro l hl
    unfold delete_analysis
    simp [hl]
  · intro hl
    unfold delete_analysis
    simp [hl]
  · intro h1 h2 h3
    unfold delete_analysis
    simp [Dict.erase_of_lookup_none _ _ h1, Dict.erase_of_lookup_none _ _ h2,
      Dict.erase_of_lookup_none _ _ h3]

/-- Closed instance of `delete_analysis_spec`: deleting the only job of a
concrete state, and (via the final clause) deleting an id absent everywhere
is a no-op. -/
theorem delete_analysis_spec_witness :
    (get_analysis_status (delete_analysis pendingOnlyState "doc_1_h").1 "doc_1_h" =
      .error ⟨404, "Documento não encontrado"⟩
    ∧ get_analysis_result (delete_analysis pendingOnlyState "doc_1_h").1 "doc_1_h" =
      .error ⟨404, "Documento não encontrado"⟩
    ∧ Dict.lookup (delete_analysis pendingOnlyState "doc_1_h").1.manager.active_connections
        "doc_1_h" = none
    ∧ (∀ l, Dict.lookup pendingOnlyState.manager.active_connections "doc_1_h" = some l →
        (delete_analysis pendingOnlyState "doc_1_h").2.1 = l)
    ∧ (Dict.lookup pendingOnlyState.manager.active_connections "doc_1_h" = none →
        (delete_analysis pendingOnlyState "doc_1_h").2.1 = [])
    ∧ (delete_analysis pendingOnlyState "doc_1_h").2.2 = "Análise removida com sucesso"
    ∧ (Dict.lookup pendingOnlyState.analysis_status_store "doc_1_h" = none →
       Dict.lookup pendingOnlyState.analysis_results_store "doc_1_h" = none →
       Dict.lookup pendingOnlyState.manager.active_connections "doc_1_h" = none →
       (delete_analysis pendingOnlyState "doc_1_h").1 = pendingOnlyState)) :=
  delete_analysis_spec pendingOnlyState "doc_1_h"

/-! ### Lookup characterisations of the hub operations -/

theorem disconnect_lookup_none (m : Manager) (c : Channel) (id : String)
    (hm : Dict.lookup m.active_connections id = none) :
    m.disconnect c id = m := by
  unfold Manager.disconnect
  rw [hm]

theorem disconnect_lookup_some (m : Manager) (c : Channel) (id : String)
    (conns : List Channel)
    (hm : Dict.lookup m.active_connections id = some conns) :
    Dict.lookup (m.disconnect c id).active_connections id =
      (if (if c ∈ conns then conns.erase c else conns) = [] then none
       else some (if c ∈ conns then conns.erase c else conns)) := by
  unfold Manager.disconnect
  rw [hm]
  by_cases he : (if c ∈ conns then conns.erase c else conns) = []
  · simp only [he, if_pos rfl]
    exact Dict.lookup_erase _ _
  · simp only [if_neg he]
    rw [Dict.lookup_insert]

theorem disconnect_lookup_ne (m : Manager) (c : Channel) {id id' : String}
    (h : id' ≠ id) :
    Dict.lookup (m.disconnect c id).active_connections id' =
      Dict.lookup m.active_connections id' := by
  unfold Manager.disconnect
  cases hm : Dict.lookup m.active_connections id with
  | none => rfl
  | some conns =>
      by_cases he : (if c ∈ conns then conns.erase c else conns) = []
      · simp only [he, if_pos rfl]
        exact Dict.lookup_erase_ne _ h
      · simp only [if_neg he]
        exact Dict.lookup_insert_ne _ _ h

theorem connect_lookup_self (m : Manager) (c : Channel) (id : String) :
    Dict.lookup (m.connect c id).active_connections id =
      some ((match Dict.lookup m.active_connections id with
             | none => []
             | some l => l) ++ [c]) := by
  unfold Manager.connect
  exact Dict.lookup_insert _ _ _

theorem connect_lookup_ne (m : Manager) (c : Channel) {id id' : String}
    (h : id' ≠ id) :
    Dict.lookup (m.connect c id).active_connections id' =
      Dict.lookup m.active_connections id' := by
  unfold Manager.connect
  exact Dict.lookup_insert_ne _ _ h

/-! ### C9: the hub never retains an empty group -/

theorem hub_connect_preserves (m : Manager) (h : HubInv m) (c : Channel)
    (id : String) : HubInv (m.connect c id) := by
  intro id' l' hl'
  by_cases hid : id' = id
  · subst hid
    rw [connect_lookup_self] at hl'
    cases hl'
    simp
  · rw [connect_lookup_ne _ _ hid] at hl'
    exact h id' l' hl'

theorem hub_disconnect_preserves (m : Manager) (h : HubInv m) (c : Channel)
    (id : String) : HubInv (m.disconnect c id) := by
  intro id' l' hl'
  by_cases hid : id' = id
  · subst hid
    cases hm : Dict.lookup m.active_connections id' with
    | none => rw [disconnect_lookup_none m c id' hm] at hl'; exact h id' l' hl'
    | some conns =>
        rw [disconnect_lookup_some m c id' conns hm] at hl'
        by_cases he : (if c ∈ conns then conns.erase c else conns) = []
        · rw [if_pos he] at hl'
          cases hl'
        · rw [if_neg he] at hl'
          cases hl'
          exact he
  · rw [disconnect_lookup_ne _ _ hid] at hl'
    exact h id' l' hl'

theorem hub_send_loop_preserves (id : String) (alive : Channel → Bool)
    (pending : List Channel) (m : Manager) (h : HubInv m) :
    HubInv (send_to_connections id alive m pending).1 := by
  induction pending generalizing m with
  | nil => exact h
  | cons c rest ih =>
      unfold send_to_connections
      by_cases hc : alive c = true
      · simp only [if_pos hc]
        exact ih m h
      · simp only [if_neg hc]
        exact ih _ (hub_disconnect_preserves m h c id)

theorem hub_broadcast_preserves (m : Manager) (h : HubInv m) (id : String)
    (alive : Channel → Bool) : HubInv (send_status_update m id alive).1 := by
  unfold send_status_update
  cases hm : Dict.lookup m.active_connections id with
  | none => exact h
  | some conns => exact hub_send_loop_preserves id alive conns m h

/-- Claim C9: the connection map never holds an empty channel list — each
of the four mutating hub operations (WebSocket connect, disconnect,
broadcast with arbitrary per-channel send failures, and delete of a
document) turns a state satisfying the no-empty-group invariant into
another such state, a group emptied by a removal being dropped at once. -/
theorem hub_never_empty (m : Manager) (h : HubInv m) :
    (∀ c id, HubInv (m.connect c id))
    ∧ (∀ c id, HubInv (m.disconnect c id))
    ∧ (∀ id alive, HubInv (send_status_update m id alive).1)
    ∧ (∀ s id, s.manager = m → HubInv (delete_analysis s id).1.manager) := by
  refine ⟨fun c id => hub_connect_preserves m h c id,
    fun c id => hub_disconnect_preserves m h c id,
    fun id alive => hub_broadcast_preserves m h id alive,
    fun s id hs => ?_⟩
  unfold delete_analysis
  intro id' l' hl'
  simp only at hl'
  by_cases hid : id' = id
  · subst hid
    rw [hs, Dict.lookup_erase] at hl'
    cases hl'
  · rw [hs, Dict.lookup_erase_ne _ hid] at hl'
    exact h id' l' hl'

/-- Closed instance of `hub_never_empty` at a hub holding one group of two
channels. -/
theorem hub_never_empty_witness :
    (∀ c id, HubInv (twoChanManager.connect c id))
    ∧ (∀ c id, HubInv (twoChanManager.disconnect c id))
    ∧ (∀ id alive, HubInv (send_status_update twoChanManager id alive).1)
    ∧ (∀ s id, s.manager = twoChanManager →
        HubInv (delete_analysis s id).1.manager) :=
  hub_never_empty twoChanManager (by
    intro id l hl
    by_cases hd : ("d" : String) = id
    · simp [twoChanManager, Dict.lookup, hd] at hl
      simp [← hl]
    · simp [twoChanManager, Dict.lookup, hd] at hl)

/-! ### C3: broadcast delivery and failure isolation -/

theorem send_loop_no_group (id : String) (alive : Channel → Bool)
    (pending : List Channel) (m : Manager)
    (hm : Dict.lookup m.active_connections id = none) :
    send_to_connections id alive m pending = (m, pending.filter alive) := by
  induction pending generalizing m with
  | nil => simp [send_to_connections]
  | cons c rest ih =>
      unfold send_to_connections
      by_cases hc : alive c = true
      · simp only [if_pos hc, ih m hm]
        simp [List.filter_cons, hc]
      · simp only [if_neg hc]
        rw [disconnect_lookup_none m c id hm, ih m hm]
        simp [List.filter_cons, hc]

theorem erase_singleton_of_mem {l : List Channel} {c : Channel}
    (h : c ∈ l) (he : l.erase c = []) : l = [c] := by
  cases l with
  | nil => cases h
  | cons x xs =>
      by_cases hx : x = c
      · subst hx
        rw [List.erase_cons_head] at he
        rw [he]
      · rw [List.erase_cons_tail (by simpa using hx)] at he
        cases he

theorem send_loop_spec (id : String) (alive : Channel → Bool)
    (pending : List Channel) :
    ∀ (m : Manager) (cur : List Channel),
      Dict.lookup m.active_connections id = some cur →
      cur ≠ [] → pending.Nodup → cur.Nodup → (∀ x ∈ pending, x ∈ cur) →
      (send_to_connections id alive m pending).2 = pending.filter alive
      ∧ Dict.lookup (send_to_connections id alive m pending).1.active_connections id =
          (if cur.filter (fun x => alive x || decide (x ∉ pending)) = [] then none
           else some (cur.filter (fun x => alive x || decide (x ∉ pending))))
      ∧ (∀ id', id' ≠ id →
          Dict.lookup (send_to_connections id alive m pending).1.active_connections id' =
            Dict.lookup m.active_connections id') := by
  induction pending with
  | nil =>
      intro m cur hm hne _ _ _
      have hfil : cur.filter (fun x => alive x || decide (x ∉ ([] : List Channel))) = cur := by
        apply List.filter_eq_self.mpr
        intro x _
        simp
      refine ⟨rfl, ?_, fun id' _ => rfl⟩
      rw [hfil, if_neg hne]
      exact hm
  | cons c rest ih =>
      intro m cur hm hne hpnd hcnd hsub
      have hcin : c ∈ cur := hsub c (by simp)
      have hrestnd : rest.Nodup := hpnd.of_cons
      have hcnotrest : c ∉ rest := by
        have := List.nodup_cons.mp hpnd
        exact this.1
      by_cases hc : alive c = true
      · have hsub' : ∀ x ∈ rest, x ∈ cur := fun x hx => hsub x (by simp [hx])
        obtain ⟨h2, hlook, hframe⟩ := ih m cur hm hne hrestnd hcnd hsub'
        unfold send_to_connections
        simp only [if_pos hc]
        refine ⟨?_, ?_, ?_⟩
        · simp [List.filter_cons, hc, h2]
        · rw [hlook]
          have : cur.filter (fun x => alive x || decide (x ∉ rest)) =
              cur.filter (fun x => alive x || decide (x ∉ c :: rest)) := by
            apply List.filter_congr
            intro x _
            by_cases hax : alive x = true
            · simp [hax]
            · have hxc : x ≠ c := by
                intro hxe
                rw [hxe] at hax
                exact hax hc
              simp [hax, hxc]
          rw [this]
        · exact hframe
      · unfold send_to_connections
        simp only [if_neg hc]
        have herase : (if c ∈ cur then cur.erase c else cur) = cur.erase c := if_pos hcin
        by_cases he : cur.erase c = []
        · have hm' : Dict.lookup (m.disconnect c id).active_connections id = none := by
            rw [disconnect_lookup_some m c id cur hm, herase, if_pos he]
          rw [send_loop_no_group id alive rest (m.disconnect c id) hm']
          have hcur1 : cur = [c] := erase_singleton_of_mem hcin he
          refine ⟨?_, ?_, ?_⟩
          · simp [List.filter_cons, hc]
          · rw [hcur1]
            have : List.filter (fun x => alive x || decide (x ∉ c :: rest)) [c] = [] := by
              simp [List.filter_cons, hc]
            rw [this, if_pos rfl, hm']
          · intro id' hid'
            exact disconnect_lookup_ne m c hid'
        · have hm' : Dict.lookup (m.disconnect c id).active_connections id =
              some (cur.erase c) := by
            rw [disconnect_lookup_some m c id cur hm, herase, if_neg he]
          have hsub' : ∀ x ∈ rest, x ∈ cur.erase c := by
            intro x hx
            have hxc : x ≠ c := fun hxe => hcnotrest (hxe ▸ hx)
            exact (List.mem_erase_of_ne hxc).mpr (hsub x (by simp [hx]))
          obtain ⟨h2, hlook, hframe⟩ :=
            ih (m.disconnect c id) (cur.erase c) hm' he hrestnd (hcnd.erase c) hsub'
          refine ⟨?_, ?_, ?_⟩
          · rw [h2]
            simp [List.filter_cons, hc]
          · rw [hlook]
            have heq : (cur.erase c).filter (fun x => alive x || decide (x ∉ rest)) =
                cur.filter (fun x => alive x || decide (x ∉ c :: rest)) := by
              rw [hcnd.erase_eq_filter c, List.filter_filter]
              apply List.filter_congr
              intro x _
              by_cases hxc : x = c
              · subst hxc
                simp [hc]
              · simp only [List.mem_cons, decide_not]
                have : (x != c) = true := by simp [hxc]
                simp [this, hxc]
            rw [heq]
          · intro id' hid'
            rw [hframe id' hid']
            exact disconnect_lookup_ne m c hid'

/-- Claim C3: broadcasting a status record to a document's group delivers
it to every channel of the group whose send succeeds (in group order);
every channel whose send raises is removed from the group — and only
those — while delivery to all remaining channels still happens; groups of
other documents are untouched.  (Channels registered at most once per
group, as the WebSocket endpoint guarantees.) -/
theorem broadcast_delivery (m : Manager) (id : String) (alive : Channel → Bool)
    (conns : List Channel)
    (hm : Dict.lookup m.active_connections id = some conns)
    (hnd : conns.Nodup) (hne : conns ≠ []) :
    (send_status_update m id alive).2 = conns.filter alive
    ∧ Dict.lookup (send_status_update m id alive).1.active_connections id =
        (if conns.filter alive = [] then none else some (conns.filter alive))
    ∧ (∀ id', id' ≠ id →
        Dict.lookup (send_status_update m id alive).1.active_connections id' =
          Dict.lookup m.active_connections id') := by
  have hfil : conns.filter (fun x => alive x || decide (x ∉ conns)) =
      conns.filter alive := by
    apply List.filter_congr
    intro x hx
    simp [hx]
  have hmain := send_loop_spec id alive conns m conns hm hne hnd hnd
    (fun x hx => hx)
  rw [hfil] at hmain
  unfold send_status_update
  rw [hm]
  exact hmain

/-- Closed instance of `broadcast_delivery`: broadcasting to the group
["d" ↦ [1, 2]] under a transport where channel 2 raises delivers to the
live channel 1, prunes exactly channel 2, and leaves the group of "e"
alone. -/
theorem broadcast_delivery_witness :
    (send_status_update mixedManager "d" (fun c => c != 2)).2 =
      [1, 2].filter (fun c => c != 2)
    ∧ Dict.lookup (send_status_update mixedManager "d" (fun c => c != 2)).1.active_connections
        "d" = (if [1, 2].filter (fun c : Channel => c != 2) = [] then none
               else some ([1, 2].filter (fun c : Channel => c != 2)))
    ∧ (∀ id', id' ≠ "d" →
        Dict.lookup (send_status_update mixedManager "d" (fun c => c != 2)).1.active_connections
          id' = Dict.lookup mixedManager.active_connections id') :=
  broadcast_delivery mixedManager "d" (fun c => c != 2) [1, 2] (by rfl)
    (by decide) (by decide)

/-! ### C8: document-id uniqueness -/

/-- Counterexample to claim C8 as stated ("two submissions never receive
the same document_id"): submitting the same file twice within the same
epoch second succeeds both times and returns the same document id, since
the id is a pure function of the epoch second and the md5 prefix
(routes.py:265-268 has no freshness check). -/
theorem document_id_collision_counterexample :
    (upload_and_analyze_contract initState aliveAll testC.md5hex16 testFile
        "fundador" 100).2 =
      .ok ⟨"doc_100_aaaabbbbccccdddd", "pending", 0,
        "Análise iniciada. Use WebSocket ou polling para acompanhar o progresso.", none⟩
    ∧ (upload_and_analyze_contract
        (upload_and_analyze_contract initState aliveAll testC.md5hex16 testFile
          "fundador" 100).1
        aliveAll testC.md5hex16 testFile "fundador" 100).2 =
      .ok ⟨"doc_100_aaaabbbbccccdddd", "pending", 0,
        "Análise iniciada. Use WebSocket ou polling para acompanhar o progresso.", none⟩ := by
  exact ⟨by decide, by decide⟩

/-- Claim C8 (amended): the minted document id is a pure function of the
epoch second and the 16-character md5 prefix.  Submissions whose hash
prefixes differ always receive distinct ids (even across different
seconds), and two submissions in the same second receive the same id
exactly when their hash prefixes coincide — so uniqueness holds only with
overwhelming probability over the fingerprint, not absolutely: identical
content resubmitted within the same second repeats the id. -/
theorem document_id_determined (t t' : Nat) (h h' : String)
    (hl : h.length = 16) (hl' : h'.length = 16) :
    (make_document_id t h = make_document_id t' h' → h = h')
    ∧ (make_document_id t h = make_document_id t h' ↔ h = h') := by
  have main : ∀ a b : Nat, make_document_id a h = make_document_id b h' → h = h' := by
    intro a b heq
    unfold make_document_id at heq
    have hd := congrArg String.data heq
    rw [String.data_append, String.data_append] at hd
    have hlen : h.data.length = h'.data.length := by
      have e1 : h.data.length = 16 := hl
      have e2 : h'.data.length = 16 := hl'
      rw [e1, e2]
    exact String.ext (List.append_inj' hd hlen).2
  exact ⟨main t t', ⟨main t t, fun he => by rw [he]⟩⟩

/-- Closed instance of `document_id_determined` at two concrete 16-char
hash prefixes and seconds 100 and 250. -/
theorem document_id_determined_witness :
    ("aaaabbbbccccdddd" : String).length = 16
    ∧ ("ccccddddeeeeffff" : String).length = 16
    ∧ ((make_document_id 100 "aaaabbbbccccdddd" =
          make_document_id 250 "ccccddddeeeeffff" →
        ("aaaabbbbccccdddd" : String) = "ccccddddeeeeffff")
      ∧ (make_document_id 100 "aaaabbbbccccdddd" =
          make_document_id 100 "ccccddddeeeeffff" ↔
        ("aaaabbbbccccdddd" : String) = "ccccddddeeeeffff")) :=
  ⟨by decide, by decide,
    document_id_determined 100 250 "aaaabbbbccccdddd" "ccccddddeeeeffff"
      (by decide) (by decide)⟩

/-! ### C2: pending-before-start and progress monotonicity -/

/-- Counterexample to claim C2 as stated: after submission the runner's
very first write — which happens before stage 1 (PDF extraction) has
completed, indeed before it has begun (routes.py:146 precedes
routes.py:156) — already flips the stored status to "processing"/10.
Concretely: after that first write the single live runner has completed
zero stages, yet a status read returns "processing", not "pending". -/
theorem pending_read_counterexample :
    (run_head testC aliveAll 101 s_after_submit).tasks.map Task.stages_completed = [0]
    ∧ get_analysis_status (run_head testC aliveAll 101 s_after_submit)
        "doc_100_aaaabbbbccccdddd" =
      .ok ⟨"doc_100_aaaabbbbccccdddd", "processing", 10,
        "Iniciando processamento do PDF...", none⟩ :=
  ⟨by decide, by decide⟩

/-- Claim C2 (amended): a status read after a successful submission and
before the runner performs any write returns "pending" with progress 0
(the runner's first write, which precedes the completion of any stage,
then sets "processing"/10); and the progress values written over a job's
lifetime are non-decreasing up to the terminal write — a completed run's
full write sequence 0,10,30,50,70,100 is non-decreasing outright, while a
failed run's terminal write resets progress to 0. -/
theorem status_progress_discipline :
    (∀ (s : SysState) (alive : Channel → Bool) (md5 : List Nat → String)
        (file : UploadFileData) (perspectiva : String) (now : Nat)
        (s' : SysState) (resp : AnalysisStatus),
        upload_and_analyze_contract s alive md5 file perspectiva now = (s', .ok resp) →
        get_analysis_status s' resp.document_id =
          .ok ⟨resp.document_id, "pending", 0,
            "Documento recebido. Aguardando processamento...", none⟩)
    ∧ (∀ k, k ≤ 4 →
        non_decreasing ((job_progress_writes k true).dropLast) = true
        ∧ (job_progress_writes k true).getLast? = some 0)
    ∧ (non_decreasing (job_progress_writes 5 false) = true
        ∧ (job_progress_writes 5 false).getLast? = some 100) := by
  refine ⟨?_, ?_, by decide, by decide⟩
  · intro s alive md5 file perspectiva now s' resp h
    unfold upload_and_analyze_contract at h
    cases hv : validate_pdf_file file with
    | error e => rw [hv] at h; simp at h
    | ok u =>
        rw [hv] at h
        by_cases hp : perspectiva ∈ ["fundador", "investidor"]
        · have hnn : ¬ perspectiva ∉ ["fundador", "investidor"] := not_not_intro hp
          rw [if_neg hnn] at h
          by_cases hsz : file.content.length > max_file_size
          · rw [if_pos hsz] at h
            simp at h
          · rw [if_neg hsz] at h
            simp only [Prod.mk.injEq] at h
            obtain ⟨hs', hresp⟩ := h
            have hid : resp.document_id = mint_document_id md5 file.content now := by
              cases hresp
              rfl
            subst hs'
            rw [hid]
            unfold get_analysis_status update_analysis_status
            simp only
            rw [Dict.lookup_insert]
        · rw [if_pos hp] at h
          simp at h
  · intro k hk
    interval_cases k <;> exact ⟨by decide, by decide⟩

/-- Closed instance of `status_progress_discipline`: the pending read
after the concrete upload of `testFile`, the failing-run write sequence
for a job that failed after two runner writes, and the completed-run
write sequence. -/
theorem status_progress_discipline_witness :
    get_analysis_status s_after_submit "doc_100_aaaabbbbccccdddd" =
      .ok ⟨"doc_100_aaaabbbbccccdddd", "pending", 0,
        "Documento recebido. Aguardando processamento...", none⟩
    ∧ (non_decreasing ((job_progress_writes 2 true).dropLast) = true
        ∧ (job_progress_writes 2 true).getLast? = some 0)
    ∧ (non_decreasing (job_progress_writes 5 false) = true
        ∧ (job_progress_writes 5 false).getLast? = some 100) :=
  ⟨status_progress_discipline.1 initState aliveAll testC.md5hex16 testFile
      "fundador" 100 s_after_submit
      ⟨"doc_100_aaaabbbbccccdddd", "pending", 0,
        "Análise iniciada. Use WebSocket ou polling para acompanhar o progresso.", none⟩
      (by decide),
    status_progress_discipline.2.1 2 (by decide),
    status_progress_discipline.2.2⟩

/-! ### Batch-loop lemmas shared by C7 and C10 -/

theorem submit_item_oversized (alive : Channel → Bool) (md5 : List Nat → String)
    (perspectiva : String) (now : Nat) (s : SysState) (file : UploadFileData)
    (h : file.content.length > max_file_size) :
    submit_item alive md5 perspectiva now s file = s := by
  unfold submit_item
  rw [if_pos h]

theorem batch_loop_all_valid (alive : Channel → Bool) (md5 : List Nat → String)
    (perspectiva : String) (now : Nat) (files : List UploadFileData) :
    ∀ (s : SysState) (acc : List BatchItem),
      (∀ f ∈ files, validate_pdf_file f = .ok ()) →
      batch_loop alive md5 perspectiva now s files acc =
        (files.foldl (submit_item alive md5 perspectiva now) s,
          .ok (acc ++ files.map (batch_item_of md5 now))) := by
  induction files with
  | nil => intro s acc _; simp [batch_loop]
  | cons f rest ih =>
      intro s acc hv
      have hvf : validate_pdf_file f = .ok () := hv f (by simp)
      have hvr : ∀ g ∈ rest, validate_pdf_file g = .ok () :=
        fun g hg => hv g (by simp [hg])
      unfold batch_loop
      rw [hvf]
      by_cases hsz : f.content.length > max_file_size
      · rw [if_pos hsz, ih _ _ hvr]
        rw [List.foldl_cons, submit_item_oversized alive md5 perspectiva now s f hsz]
        simp
      · rw [if_neg hsz, ih _ _ hvr]
        simp

theorem batch_loop_aborts (alive : Channel → Bool) (md5 : List Nat → String)
    (perspectiva : String) (now : Nat) (good : List UploadFileData)
    (bad : UploadFileData) (rest : List UploadFileData) (e : HTTPException) :
    ∀ (s : SysState) (acc : List BatchItem),
      (∀ f ∈ good, validate_pdf_file f = .ok ()) →
      validate_pdf_file bad = .error e →
      batch_loop alive md5 perspectiva now s (good ++ bad :: rest) acc =
        (good.foldl (submit_item alive md5 perspectiva now) s, .error e) := by
  induction good with
  | nil =>
      intro s acc _ hbad
      rw [List.nil_append]
      unfold batch_loop
      rw [hbad]
      rfl
  | cons f goodrest ih =>
      intro s acc hv hbad
      have hvf : validate_pdf_file f = .ok () := hv f (by simp)
      have hvr : ∀ g ∈ goodrest, validate_pdf_file g = .ok () :=
        fun g hg => hv g (by simp [hg])
      rw [List.cons_append]
      unfold batch_loop
      rw [hvf]
      by_cases hsz : f.content.length > max_file_size
      · rw [if_pos hsz, ih _ _ hvr hbad]
        rw [List.foldl_cons, submit_item_oversized alive md5 perspectiva now s f hsz]
      · rw [if_neg hsz, ih _ _ hvr hbad]
        rfl

theorem foldl_no_write_lookup (alive : Channel → Bool) (md5 : List Nat → String)
    (perspectiva : String) (now : Nat) (files : List UploadFileData) :
    ∀ (s : SysState) (id : String),
      (∀ f ∈ files, f.content.length ≤ max_file_size →
        mint_document_id md5 f.content now ≠ id) →
      Dict.lookup
        (files.foldl (submit_item alive md5 perspectiva now) s).analysis_status_store
        id = Dict.lookup s.analysis_status_store id := by
  induction files with
  | nil => intro s id _; rfl
  | cons f rest ih =>
      intro s id hno
      rw [List.foldl_cons]
      rw [ih _ _ (fun g hg => hno g (by simp [hg]))]
      by_cases hsz : f.content.length > max_file_size
      · rw [submit_item_oversized alive md5 perspectiva now s f hsz]
      · have hne : mint_document_id md5 f.content now ≠ id :=
          hno f (by simp) (by omega)
        unfold submit_item
        rw [if_neg hsz]
        unfold update_analysis_status
        simp only
        exact Dict.lookup_insert_ne _ _ (Ne.symm hne)

theorem foldl_pending_lookup (alive : Channel → Bool) (md5 : List Nat → String)
    (perspectiva : String) (now : Nat) (files : List UploadFileData) :
    ∀ (s : SysState) (id : String),
      (∃ f ∈ files, f.content.length ≤ max_file_size ∧
        mint_document_id md5 f.content now = id) →
      ∃ r, Dict.lookup
          (files.foldl (submit_item alive md5 perspectiva now) s).analysis_status_store
          id = some r ∧ r.status = "pending" ∧ r.progress = 0 := by
  induction files with
  | nil => intro s id h; simp at h
  | cons f rest ih =>
      intro s id h
      rw [List.foldl_cons]
      by_cases hrest : ∃ g ∈ rest, g.content.length ≤ max_file_size ∧
          mint_document_id md5 g.content now = id
      · exact ih _ _ hrest
      · obtain ⟨g, hg, hfit, hmint⟩ := h
        have hgf : g = f := by
          rcases List.mem_cons.mp hg with h1 | h2
          · exact h1
          · exact absurd ⟨g, h2, hfit, hmint⟩ hrest
        subst hgf
        push_neg at hrest
        rw [foldl_no_write_lookup alive md5 perspectiva now rest _ _
          (fun g' hg' hfit' => hrest g' hg' hfit')]
        unfold submit_item
        rw [if_neg (by omega)]
        unfold update_analysis_status
        simp only
        rw [hmint, Dict.lookup_insert]
        exact ⟨_, rfl, rfl, rfl⟩

theorem submit_item_task_mono (alive : Channel → Bool) (md5 : List Nat → String)
    (perspectiva : String) (now : Nat) (s : SysState) (f : UploadFileData)
    (t : Task) (ht : t ∈ s.tasks) :
    t ∈ (submit_item alive md5 perspectiva now s f).tasks := by
  unfold submit_item
  by_cases hsz : f.content.length > max_file_size
  · rw [if_pos hsz]; exact ht
  · rw [if_neg hsz]
    simp only [update_analysis_status]
    exact List.mem_append_left _ ht

theorem foldl_task_mono (alive : Channel → Bool) (md5 : List Nat → String)
    (perspectiva : String) (now : Nat) (files : List UploadFileData) :
    ∀ (s : SysState) (t : Task), t ∈ s.tasks →
      t ∈ (files.foldl (submit_item alive md5 perspectiva now) s).tasks := by
  induction files with
  | nil => intro s t ht; exact ht
  | cons f rest ih =>
      intro s t ht
      rw [List.foldl_cons]
      exact ih _ _ (submit_item_task_mono alive md5 perspectiva now s f t ht)

theorem foldl_task_scheduled (alive : Channel → Bool) (md5 : List Nat → String)
    (perspectiva : String) (now : Nat) (files : List UploadFileData) :
    ∀ (s : SysState) (f : UploadFileData), f ∈ files →
      f.content.length ≤ max_file_size →
      ∃ t ∈ (files.foldl (submit_item alive md5 perspectiva now) s).tasks,
        t.document_id = mint_document_id md5 f.content now
        ∧ t.file_content = f.content := by
  induction files with
  | nil => intro s f hf; cases hf
  | cons g rest ih =>
      intro s f hf hfit
      rw [List.foldl_cons]
      rcases List.mem_cons.mp hf with h1 | h2
      · subst h1
        refine ⟨⟨mint_document_id md5 f.content now, f.content, f.filename,
          perspectiva, 0⟩, ?_, rfl, rfl⟩
        apply foldl_task_mono
        unfold submit_item
        rw [if_neg (by omega)]
        simp only [update_analysis_status]
        exact List.mem_append_right _ (by simp)
      · exact ih _ f h2 hfit

/-! ### list_analyses membership -/

theorem Dict.lookup_some_mem {α : Type} (d : Dict α) (k : String) (v : α)
    (h : Dict.lookup d k = some v) : (k, v) ∈ d := by
  induction d with
  | nil => cases h
  | cons p rest ih =>
      unfold Dict.lookup at h
      by_cases hp : p.1 = k
      · rw [if_pos hp] at h
        cases h
        subst hp
        simp
      · rw [if_neg hp] at h
        exact List.mem_cons_of_mem p (ih h)

theorem mem_insert_by_ts_self (e : AnalysisListEntry) (l : List AnalysisListEntry) :
    e ∈ insert_by_ts_desc e l := by
  induction l with
  | nil => simp [insert_by_ts_desc]
  | cons x xs ih =>
      unfold insert_by_ts_desc
      by_cases hx : x.timestamp ≤ e.timestamp
      · rw [if_pos hx]; simp
      · rw [if_neg hx]
        exact List.mem_cons_of_mem x ih

theorem mem_insert_by_ts_of_mem (e x : AnalysisListEntry)
    (l : List AnalysisListEntry) (h : e ∈ l) : e ∈ insert_by_ts_desc x l := by
  induction l with
  | nil => cases h
  | cons y ys ih =>
      unfold insert_by_ts_desc
      by_cases hy : y.timestamp ≤ x.timestamp
      · rw [if_pos hy]
        exact List.mem_cons_of_mem x h
      · rw [if_neg hy]
        rcases List.mem_cons.mp h with h1 | h2
        · rw [h1]; simp
        · exact List.mem_cons_of_mem y (ih h2)

theorem mem_sort_of_mem (e : AnalysisListEntry) (l : List AnalysisListEntry)
    (h : e ∈ l) : e ∈ sort_by_ts_desc l := by
  induction l with
  | nil => cases h
  | cons x xs ih =>
      unfold sort_by_ts_desc
      rcases List.mem_cons.mp h with h1 | h2
      · rw [h1]
        exact mem_insert_by_ts_self x (sort_by_ts_desc xs)
      · exact mem_insert_by_ts_of_mem e x _ (ih h2)

theorem list_analyses_of_lookup (s : SysState) (id : String) (r : StatusRecord)
    (h : Dict.lookup s.analysis_status_store id = some r) :
    ∃ en ∈ (list_analyses s).1, en.document_id = id ∧ en.status = r.status := by
  refine ⟨⟨id, r.status, r.progress, r.message, r.timestamp⟩, ?_, rfl, rfl⟩
  unfold list_analyses
  simp only
  apply mem_sort_of_mem
  have hmem := Dict.lookup_some_mem _ _ _ h
  exact List.mem_map.mpr ⟨(id, r), hmem, rfl⟩

/-! ### C7: per-item batch outcomes -/

theorem get_status_of_lookup (s : SysState) (id : String) (r : StatusRecord)
    (h : Dict.lookup s.analysis_status_store id = some r) :
    get_analysis_status s id = .ok ⟨id, r.status, r.progress, r.message, r.error_details⟩ := by
  unfold get_analysis_status
  rw [h]

/-- Claim C7: a batch of at most 10 valid PDF files yields a response with
exactly one row per input file in input order; an oversized file produces
an inline per-item error row while every other file is scheduled (a
"pending" record is written under its minted job id and a runner task is
queued) — an oversized item does not abort the rest; a batch of more than
10 files is rejected as a whole, leaving the state untouched. -/
theorem batch_submit_spec (s : SysState) (alive : Channel → Bool)
    (md5 : List Nat → String) (files : List UploadFileData)
    (perspectiva : String) (now : Nat)
    (hn : files.length ≤ 10)
    (hv : ∀ f ∈ files, validate_pdf_file f = .ok ()) :
    (batch_analyze_contracts s alive md5 files perspectiva now).2 =
      .ok (files.map (batch_item_of md5 now), files.length)
    ∧ (∀ f ∈ files, f.content.length > max_file_size →
        batch_item_of md5 now f =
          .fileError f.filename "Arquivo muito grande (máx. 50.0MB)")
    ∧ (∀ f ∈ files, f.content.length ≤ max_file_size →
        batch_item_of md5 now f =
          .scheduled f.filename (mint_document_id md5 f.content now) "pending"
        ∧ (∃ r, Dict.lookup
            (batch_analyze_contracts s alive md5 files perspectiva now).1.analysis_status_store
            (mint_document_id md5 f.content now) = some r ∧ r.status = "pending")
        ∧ (∃ t ∈ (batch_analyze_contracts s alive md5 files perspectiva now).1.tasks,
            t.document_id = mint_document_id md5 f.content now
            ∧ t.file_content = f.content))
    ∧ (∀ files' : List UploadFileData, files'.length > 10 →
        batch_analyze_contracts s alive md5 files' perspectiva now =
          (s, .error ⟨400, "Máximo 10 arquivos por lote"⟩)) := by
  have hloop := batch_loop_all_valid alive md5 perspectiva now files s [] hv
  have hbatch : batch_analyze_contracts s alive md5 files perspectiva now =
      (files.foldl (submit_item alive md5 perspectiva now) s,
        .ok (files.map (batch_item_of md5 now),
          (files.map (batch_item_of md5 now)).length)) := by
    unfold batch_analyze_contracts
    rw [if_neg (by omega), hloop]
    rfl
  refine ⟨?_, ?_, ?_, ?_⟩
  · rw [hbatch]
    simp
  · intro f _ hsz
    unfold batch_item_of
    rw [if_pos hsz]
  · intro f hf hsz
    refine ⟨?_, ?_, ?_⟩
    · unfold batch_item_of
      rw [if_neg (by omega)]
    · rw [hbatch]
      obtain ⟨r, hr, hst, _⟩ := foldl_pending_lookup alive md5 perspectiva now files s
        (mint_document_id md5 f.content now) ⟨f, hf, hsz, rfl⟩
      exact ⟨r, hr, hst⟩
    · rw [hbatch]
      exact foldl_task_scheduled alive md5 perspectiva now files s f hf hsz
  · intro files' hbig
    unfold batch_analyze_contracts
    rw [if_pos hbig]

/-- Closed instance of `batch_submit_spec`: a 3-file batch in which the
second file exceeds the size limit. -/
theorem batch_submit_spec_witness :
    (batch_analyze_contracts initState aliveAll testC.md5hex16
        [testFile, bigFile, testFile2] "fundador" 100).2 =
      .ok ([testFile, bigFile, testFile2].map (batch_item_of testC.md5hex16 100),
        ([testFile, bigFile, testFile2] : List UploadFileData).length)
    ∧ (∀ f ∈ [testFile, bigFile, testFile2], f.content.length > max_file_size →
        batch_item_of testC.md5hex16 100 f =
          .fileError f.filename "Arquivo muito grande (máx. 50.0MB)")
    ∧ (∀ f ∈ [testFile, bigFile, testFile2], f.content.length ≤ max_file_size →
        batch_item_of testC.md5hex16 100 f =
          .scheduled f.filename (mint_document_id testC.md5hex16 f.content 100) "pending"
        ∧ (∃ r, Dict.lookup
            (batch_analyze_contracts initState aliveAll testC.md5hex16
              [testFile, bigFile, testFile2] "fundador" 100).1.analysis_status_store
            (mint_document_id testC.md5hex16 f.content 100) = some r ∧ r.status = "pending")
        ∧ (∃ t ∈ (batch_analyze_contracts initState aliveAll testC.md5hex16
              [testFile, bigFile, testFile2] "fundador" 100).1.tasks,
            t.document_id = mint_document_id testC.md5hex16 f.content 100
            ∧ t.file_content = f.content))
    ∧ (∀ files' : List UploadFileData, files'.length > 10 →
        batch_analyze_contracts initState aliveAll testC.md5hex16 files' "fundador" 100 =
          (initState, .error ⟨400, "Máximo 10 arquivos por lote"⟩)) :=
  batch_submit_spec initState aliveAll testC.md5hex16
    [testFile, bigFile, testFile2] "fundador" 100 (by decide)
    (by intro f hf; fin_cases hf <;> decide)

/-! ### C10: a mid-batch validation failure aborts the request but keeps
earlier writes -/

theorem validate_error_code (f : UploadFileData) (e : HTTPException)
    (h : validate_pdf_file f = .error e) : e.status_code = 415 := by
  unfold validate_pdf_file at h
  by_cases h1 : f.content_type ∉ allowed_file_types
  · rw [if_pos h1] at h
    cases h
    rfl
  · rw [if_neg h1] at h
    by_cases h2 : ¬ ends_with_dot_pdf f.filename
    · rw [if_pos h2] at h
      cases h
      rfl
    · rw [if_neg h2] at h
      cases h

/-- Claim C10: when a batch contains a file that fails PDF validation
(disallowed content type or a filename not ending in ".pdf"), the whole
request aborts with that 415 validation error and returns no per-item
list, yet every valid, size-conforming file earlier in the input list has
already had a "pending" status record written under its minted id, which
stays visible to subsequent status reads and list reads. -/
theorem batch_abort_keeps_writes (s : SysState) (alive : Channel → Bool)
    (md5 : List Nat → String) (good : List UploadFileData)
    (bad : UploadFileData) (rest : List UploadFileData)
    (perspectiva : String) (now : Nat) (e : HTTPException)
    (hn : (good ++ bad :: rest).length ≤ 10)
    (hgood : ∀ f ∈ good, validate_pdf_file f = .ok ())
    (hbad : validate_pdf_file bad = .error e) :
    (batch_analyze_contracts s alive md5 (good ++ bad :: rest) perspectiva now).2 =
      .error e
    ∧ e.status_code = 415
    ∧ (∀ f ∈ good, f.content.length ≤ max_file_size →
        ∃ r, Dict.lookup
            (batch_analyze_contracts s alive md5 (good ++ bad :: rest)
              perspectiva now).1.analysis_status_store
            (mint_document_id md5 f.content now) = some r
          ∧ r.status = "pending"
          ∧ get_analysis_status
              (batch_analyze_contracts s alive md5 (good ++ bad :: rest)
                perspectiva now).1
              (mint_document_id md5 f.content now) =
            .ok ⟨mint_document_id md5 f.content now, r.status, r.progress,
              r.message, r.error_details⟩
          ∧ ∃ en ∈ (list_analyses
              (batch_analyze_contracts s alive md5 (good ++ bad :: rest)
                perspectiva now).1).1,
              en.document_id = mint_document_id md5 f.content now
              ∧ en.status = "pending") := by
  have hloop := batch_loop_aborts alive md5 perspectiva now good bad rest e s [] hgood hbad
  have hbatch : batch_analyze_contracts s alive md5 (good ++ bad :: rest) perspectiva now =
      (good.foldl (submit_item alive md5 perspectiva now) s, .error e) := by
    unfold batch_analyze_contracts
    rw [if_neg (by omega), hloop]
  refine ⟨by rw [hbatch], validate_error_code bad e hbad, ?_⟩
  intro f hf hfit
  rw [hbatch]
  obtain ⟨r, hr, hst, _⟩ := foldl_pending_lookup alive md5 perspectiva now good s
    (mint_document_id md5 f.content now) ⟨f, hf, hfit, rfl⟩
  obtain ⟨en, hen, hid, hstat⟩ := list_analyses_of_lookup _ _ _ hr
  exact ⟨r, hr, hst, get_status_of_lookup _ _ _ hr,
    en, hen, hid, by rw [hstat, hst]⟩

/-- Closed instance of `batch_abort_keeps_writes`: the batch
[valid pdf, csv file] aborts with the content-type error while the first
file's "pending" record survives. -/
theorem batch_abort_keeps_writes_witness :
    (batch_analyze_contracts initState aliveAll testC.md5hex16
        [testFile, badTypeFile] "fundador" 100).2 =
      .error ⟨415, "Tipo de arquivo não suportado. Apenas PDF é permitido."⟩
    ∧ (⟨415, "Tipo de arquivo não suportado. Apenas PDF é permitido."⟩ :
        HTTPException).status_code = 415
    ∧ (∀ f ∈ [testFile], f.content.length ≤ max_file_size →
        ∃ r, Dict.lookup
            (batch_analyze_contracts initState aliveAll testC.md5hex16
              [testFile, badTypeFile] "fundador" 100).1.analysis_status_store
            (mint_document_id testC.md5hex16 f.content 100) = some r
          ∧ r.status = "pending"
          ∧ get_analysis_status
              (batch_analyze_contracts initState aliveAll testC.md5hex16
                [testFile, badTypeFile] "fundador" 100).1
              (mint_document_id testC.md5hex16 f.content 100) =
            .ok ⟨mint_document_id testC.md5hex16 f.content 100, r.status, r.progress,
              r.message, r.error_details⟩
          ∧ ∃ en ∈ (list_analyses
              (batch_analyze_contracts initState aliveAll testC.md5hex16
                [testFile, badTypeFile] "fundador" 100).1).1,
              en.document_id = mint_document_id testC.md5hex16 f.content 100
              ∧ en.status = "pending") :=
  batch_abort_keeps_writes initState aliveAll testC.md5hex16 [testFile]
    badTypeFile [] "fundador" 100
    ⟨415, "Tipo de arquivo não suportado. Apenas PDF é permitido."⟩
    (by decide) (by intro f hf; fin_cases hf <;> decide) (by decide)

/-! ### C1: the results store only ever holds completed jobs -/

theorem upload_ok_effect (s : SysState) (alive : Channel → Bool)
    (md5 : List Nat → String) (file : UploadFileData) (perspectiva : String)
    (now : Nat)
    (hok : (upload_and_analyze_contract s alive md5 file perspectiva now).2.isOk = true) :
    (upload_and_analyze_contract s alive md5 file perspectiva now).1.analysis_status_store =
      Dict.insert s.analysis_status_store (mint_document_id md5 file.content now)
        ⟨mint_document_id md5 file.content now, "pending", 0,
          "Documento recebido. Aguardando processamento...", now, none⟩
    ∧ (upload_and_analyze_contract s alive md5 file perspectiva now).1.analysis_results_store =
        s.analysis_results_store
    ∧ (upload_and_analyze_contract s alive md5 file perspectiva now).1.tasks =
        s.tasks ++ [⟨mint_document_id md5 file.content now, file.content,
          file.filename, perspectiva, 0⟩] := by
  cases hv : validate_pdf_file file with
  | error e =>
      have herr : (upload_and_analyze_contract s alive md5 file perspectiva now).2 =
          .error e := by
        unfold upload_and_analyze_contract
        rw [hv]
      rw [herr] at hok
      simp [Except.isOk, Except.toBool] at hok
  | ok u =>
      unfold upload_and_analyze_contract at hok ⊢
      simp only [hv] at hok ⊢
      by_cases hp : perspectiva ∈ ["fundador", "investidor"]
      · have hnn : ¬ perspectiva ∉ ["fundador", "investidor"] := not_not_intro hp
        rw [if_neg hnn] at hok ⊢
        by_cases hsz : file.content.length > max_file_size
        · rw [if_pos hsz] at hok
          simp [Except.isOk, Except.toBool] at hok
        · rw [if_neg hsz]
          exact ⟨rfl, rfl, rfl⟩
      · rw [if_pos hp] at hok
        simp [Except.isOk, Except.toBool] at hok

theorem sysinv_init : SysInv initState := by
  refine ⟨?_, ?_, ?_⟩
  · intro id r hr
    cases hr
  · intro t ht
    cases ht
  · exact List.nodup_nil

theorem sysinv_upload (s : SysState) (alive : Channel → Bool)
    (md5 : List Nat → String) (file : UploadFileData) (perspectiva : String)
    (now : Nat)
    (hok : (upload_and_analyze_contract s alive md5 file perspectiva now).2.isOk = true)
    (hfr : Dict.lookup s.analysis_results_store
      (mint_document_id md5 file.content now) = none)
    (hft : mint_document_id md5 file.content now ∉ s.tasks.map Task.document_id)
    (hinv : SysInv s) :
    SysInv (upload_and_analyze_contract s alive md5 file perspectiva now).1 := by
  obtain ⟨hstore, hsep, hnd⟩ := hinv
  obtain ⟨est, ers, ets⟩ := upload_ok_effect s alive md5 file perspectiva now hok
  refine ⟨?_, ?_, ?_⟩
  · intro id r hr
    rw [ers] at hr
    obtain ⟨st, hst, hc⟩ := hstore id r hr
    have hne : id ≠ mint_document_id md5 file.content now := by
      intro he
      rw [he] at hr
      rw [hr] at hfr
      cases hfr
    rw [est, Dict.lookup_insert_ne _ _ hne]
    exact ⟨st, hst, hc⟩
  · intro t ht
    rw [ets] at ht
    rw [ers]
    rcases List.mem_append.mp ht with h1 | h2
    · exact hsep t h1
    · have : t = ⟨mint_document_id md5 file.content now, file.content,
          file.filename, perspectiva, 0⟩ := by
        simpa using h2
      rw [this]
      exact hfr
  · show ((upload_and_analyze_contract s alive md5 file perspectiva now).1.tasks.map
      Task.document_id).Nodup
    rw [ets]
    rw [List.map_append]
    refine hnd.append (by simp) ?_
    intro a ha hb
    simp only [List.map_cons, List.map_nil, List.mem_singleton] at hb
    rw [hb] at ha
    exact hft ha

theorem sysinv_run (C : Collaborators) (s : SysState) (alive : Channel → Bool)
    (t : Task) (now : Nat) (ht : t ∈ s.tasks) (hinv : SysInv s) :
    SysInv (run_task_step C alive s t now) := by
  obtain ⟨hstore, hsep, hnd⟩ := hinv
  have htasksnd : s.tasks.Nodup := hnd.of_map
  unfold run_task_step
  by_cases hst : t.stage < 4
  · rw [if_pos hst]
    refine ⟨?_, ?_, ?_⟩
    · intro id r hr
      simp only [update_analysis_status] at hr ⊢
      obtain ⟨st, hs, hc⟩ := hstore id r hr
      have hne : id ≠ t.document_id := by
        intro he
        rw [he] at hr
        rw [hsep t ht] at hr
        cases hr
      rw [Dict.lookup_insert_ne _ _ hne]
      exact ⟨st, hs, hc⟩
    · intro u hu
      simp only [update_analysis_status] at hu ⊢
      rcases List.mem_append.mp hu with h1 | h2
      · exact hsep u (List.mem_of_mem_erase h1)
      · have hu2 : u = { t with stage := t.stage + 1 } := by simpa using h2
        rw [hu2]
        exact hsep t ht
    · show ((s.tasks.erase t ++ [{ t with stage := t.stage + 1 }]).map
        Task.document_id).Nodup
      rw [List.map_append]
      have hperm : ((s.tasks.erase t).map Task.document_id ++
          [Task.document_id { t with stage := t.stage + 1 }]).Perm
          (s.tasks.map Task.document_id) := by
        refine (List.perm_append_singleton _ _).trans ?_
        have : Task.document_id { t with stage := t.stage + 1 } = t.document_id := rfl
        rw [this]
        have h2 : (t :: s.tasks.erase t).Perm s.tasks :=
          (List.perm_cons_erase ht).symm
        simpa using h2.map Task.document_id
      exact hperm.nodup_iff.mpr hnd
  · rw [if_neg hst]
    refine ⟨?_, ?_, ?_⟩
    · intro id r hr
      simp only [update_analysis_status] at hr ⊢
      by_cases hne : id = t.document_id
      · subst hne
        rw [Dict.lookup_insert]
        exact ⟨_, rfl, rfl⟩
      · rw [Dict.lookup_insert_ne _ _ hne] at hr ⊢
        obtain ⟨st, hs, hc⟩ := hstore id r hr
        exact ⟨st, hs, hc⟩
    · intro u hu
      simp only [update_analysis_status] at hu ⊢
      have hu' : u ∈ s.tasks.erase t := hu
      have humem : u ∈ s.tasks := List.mem_of_mem_erase hu'
      have hune : u ≠ t := ((htasksnd.mem_erase_iff).mp hu').1
      have hidne : u.document_id ≠ t.document_id := by
        intro he
        exact hune (List.inj_on_of_nodup_map hnd humem ht he)
      rw [Dict.lookup_insert_ne _ _ hidne]
      exact hsep u humem
    · simp only [update_analysis_status]
      have hsub : ((s.tasks.erase t).map Task.document_id).Sublist
          (s.tasks.map Task.document_id) :=
        (s.tasks.erase_sublist t).map Task.document_id
      exact hnd.sublist hsub

theorem sysinv_fail (s : SysState) (alive : Channel → Bool) (t : Task)
    (e : String) (now : Nat) (ht : t ∈ s.tasks) (hinv : SysInv s) :
    SysInv (fail_task_step alive s t e now) := by
  obtain ⟨hstore, hsep, hnd⟩ := hinv
  unfold fail_task_step
  refine ⟨?_, ?_, ?_⟩
  · intro id r hr
    simp only [update_analysis_status] at hr ⊢
    obtain ⟨st, hs, hc⟩ := hstore id r hr
    have hne : id ≠ t.document_id := by
      intro he
      rw [he] at hr
      rw [hsep t ht] at hr
      cases hr
    rw [Dict.lookup_insert_ne _ _ hne]
    exact ⟨st, hs, hc⟩
  · intro u hu
    simp only [update_analysis_status] at hu ⊢
    exact hsep u (List.mem_of_mem_erase hu)
  · simp only [update_analysis_status]
    exact hnd.sublist ((s.tasks.erase_sublist t).map Task.document_id)

theorem sysinv_delete (s : SysState) (id : String) (hinv : SysInv s) :
    SysInv (delete_analysis s id).1 := by
  obtain ⟨hstore, hsep, hnd⟩ := hinv
  unfold delete_analysis
  refine ⟨?_, ?_, ?_⟩
  · intro id' r hr
    simp only at hr ⊢
    by_cases hne : id' = id
    · subst hne
      rw [Dict.lookup_erase] at hr
      cases hr
    · rw [Dict.lookup_erase_ne _ hne] at hr
      obtain ⟨st, hs, hc⟩ := hstore id' r hr
      rw [Dict.lookup_erase_ne _ hne]
      exact ⟨st, hs, hc⟩
  · intro u hu
    simp only at hu ⊢
    by_cases hne : u.document_id = id
    · rw [hne, Dict.lookup_erase]
    · rw [Dict.lookup_erase_ne _ hne]
      exact hsep u hu
  · exact hnd

theorem sysinv_step (C : Collaborators) {s s' : SysState} (hstep : Step C s s')
    (hinv : SysInv s) : SysInv s' := by
  cases hstep with
  | submit alive file perspectiva now hok hfr hft =>
      exact sysinv_upload s alive C.md5hex16 file perspectiva now hok hfr hft hinv
  | run alive t now ht => exact sysinv_run C s alive t now ht hinv
  | fail alive t e now ht => exact sysinv_fail s alive t e now ht hinv
  | del id => exact sysinv_delete s id hinv
  | ws_connect c id => exact hinv
  | ws_disconnect c id => exact hinv

/-- Claim C1 (amended): in every state reachable from the empty initial
state by the system's operations — submit, runner write, runner failure,
delete, WebSocket connect/disconnect — provided each submit mints a
document id that is fresh (not currently in the results store and not
carried by a live runner, the uniqueness the id scheme is designed for),
every document id present in the results store is present in the status
store with status "completed". -/
theorem results_follow_completed (C : Collaborators) (s : SysState)
    (h : Reach C s) : StoreInv s := by
  suffices hs : SysInv s from hs.1
  induction h with
  | init => exact sysinv_init
  | step hr hstep ih => exact sysinv_step C hstep ih

/-- Counterexample to claim C1 as stated: the store invariant does not
hold after every operation.  Submit a file at second 100, let the runner
finish (five runner steps, result stored, status "completed"), then
submit the identical file again within the same second — the code mints
the same document id (see `document_id_collision_counterexample`) and
unconditionally writes a fresh "pending" status for it
(routes.py:271-276), leaving a results-store entry whose status-store
record now reads "pending", not "completed". -/
theorem store_invariant_counterexample :
    Dict.lookup s_collision.analysis_results_store "doc_100_aaaabbbbccccdddd" =
      some ⟨"resumo", ["c1", "c2"]⟩
    ∧ ¬ StoreInv s_collision := by
  refine ⟨by decide, ?_⟩
  intro h
  obtain ⟨st, hst, hcomp⟩ :=
    h "doc_100_aaaabbbbccccdddd" ⟨"resumo", ["c1", "c2"]⟩ (by decide)
  rw [show Dict.lookup s_collision.analysis_status_store "doc_100_aaaabbbbccccdddd" =
      some ⟨"doc_100_aaaabbbbccccdddd", "pending", 0,
        "Documento recebido. Aguardando processamento...", 100, none⟩ from by decide] at hst
  cases hst
  exact absurd hcomp (by decide)

/-- Closed instance of `results_follow_completed`: the invariant holds in
the concrete reachable state after one fresh submit. -/
theorem results_follow_completed_witness : StoreInv s_after_submit :=
  results_follow_completed testC s_after_submit
    (Reach.step Reach.init
      (Step.submit initState aliveAll testFile "fundador" 100
        (by decide) (by decide) (by decide)))
